import Mathlib

/-!
Verification of the editwheel wheel-editing tool against its specification.

The development shallowly embeds two layers of the program:

* the command-line front-end `src/python/editwheel/cli.py` (the `_show` and
  `_edit` subcommand handlers and the argparse-level path validation), whose
  control flow is translated function by function; and
* the wheel rewrite engine (the `WheelEditor` Rust extension), whose sources
  are not part of this repository snapshot. Those parts are modelled from the
  specification (marked `Modelled from the spec:` in their doc comments):
  the RECORD manifest builder, the atomic in-place save protocol, the ZIP64
  local-extra layout, the save normalization used for idempotence, and the
  public `normalize_dist_info_name` function.

Bytes are modelled as `List Nat` (each element a byte value), exit statuses
as `Nat`, and fallible operations as `Option`/`Except` values.
-/

namespace EditWheel

/-! ## CLI `show` subcommand (cli.py lines 31-70 and 24-28)

`_show` builds a fixed dictionary of thirteen metadata fields, optionally
filters it by the `--field` flags (field names are normalized by replacing
`-` with `_` and lowercasing), and exits 1 when the editor fails to load or
when the filter leaves no field. The `wheel` positional argument is checked
by the argparse `type=` callback `_existing_path`, which raises
`ArgumentTypeError` for a nonexistent path; argparse turns that into
`parser.error`, which exits the process with status 2. -/

/-- The keys of the metadata dict built by `_show` (cli.py lines 42-56),
in source order. -/
def showFields : List String :=
  ["name", "version", "summary", "author", "author_email", "license",
   "requires_python", "classifiers", "requires_dist", "project_urls",
   "python_tag", "abi_tag", "platform_tag"]

/-- ASCII lowercasing of one character, the fragment of Python `str.lower`
relevant to the ASCII metadata key names. -/
def asciiLower (c : Char) : Char :=
  if 'A' ≤ c ∧ c ≤ 'Z' then Char.ofNat (c.toNat + 32) else c

/-- Python `s.lower()` on ASCII strings: lowercase every character. -/
def pyLower (s : String) : String := String.mk (s.data.map asciiLower)

/-- Field-name normalization applied to each `--field` argument
(cli.py line 61): `f.replace("-", "_").lower()` — the pattern is a single
character, so the replacement is character-wise. -/
def normalizeField (f : String) : String :=
  pyLower (String.mk (f.data.map (fun c => if c = '-' then '_' else c)))

/-- The metadata keys that survive the `--field` filter (cli.py lines 62-64):
keys `k` with `k.lower()` in the normalized field set. -/
def showFilter (fields : List String) : List String :=
  showFields.filter (fun k => (fields.map normalizeField).contains (pyLower k))

/-- Exit status of the `_show` handler (cli.py lines 31-70), given whether
`WheelEditor(wheel)` succeeded and the list of `--field` arguments.
Returning from the handler without `sys.exit` means process status 0. -/
def showExit (loadOk : Bool) (fields : List String) : Nat :=
  if loadOk = false then 1
  else if fields.isEmpty then 0
  else if (showFilter fields).isEmpty then 1
  else 0

/-- Exit status of a full `show` invocation: a `wheel` path that fails the
`_existing_path` check (cli.py lines 24-28) is rejected by argparse with
status 2 before `_show` runs; otherwise `_show` decides the status. -/
def showCliExit (wheelPathExists : Bool) (loadOk : Bool)
    (fields : List String) : Nat :=
  if wheelPathExists = false then 2 else showExit loadOk fields

/-! ## CLI `edit` subcommand (cli.py lines 88-201) -/

/-- The parsed flags of the `edit` subcommand that the handler inspects. -/
structure EditArgs where
  pkgName : Option String
  version : Option String
  summary : Option String
  author : Option String
  authorEmail : Option String
  pkgLicense : Option String
  requiresPython : Option String
  setClassifiers : Option String
  addClassifier : List String
  setRequiresDist : Option String
  addRequiresDist : List String
  platformTag : Option String
  pythonTag : Option String
  abiTag : Option String
  output : Option String
  deriving Repr, DecidableEq

/-- Python `str.strip()` on the ASCII whitespace characters it removes. -/
def isPyWs (c : Char) : Bool :=
  c = ' ' || c = '\t' || c = '\n' || c = '\x0d' || c = '\x0b' || c = '\x0c'

/-- Python `s.strip()`: drop leading and trailing whitespace. -/
def pyStrip (s : String) : String :=
  String.mk (((s.data.dropWhile isPyWs).reverse.dropWhile isPyWs).reverse)

/-- Python `s.split(",")` on the character list: split at every comma,
keeping empty segments, so the empty string yields one empty segment. -/
def splitComma : List Char → List (List Char)
  | [] => [[]]
  | c :: cs =>
    match splitComma cs with
    | [] => [[c]]
    | h :: t => if c = ',' then [] :: h :: t else (c :: h) :: t

/-- The list comprehension `[c.strip() for c in s.split(",") if c.strip()]`
used for `--set-classifiers` (cli.py lines 131-133) and
`--set-requires-dist` (lines 143-145). -/
def splitTrim (s : String) : List String :=
  ((splitComma s.data).map (fun l => pyStrip (String.mk l))).filter
    (fun c => c ≠ "")

/-- Classifier flags applied to the loaded classifier list
(cli.py lines 129-139): `--set-classifiers` replaces the list;
otherwise a non-empty `--add-classifier` list is appended;
otherwise the list is untouched. -/
def applyClassifierFlags (setOpt : Option String) (adds : List String)
    (orig : List String) : List String :=
  match setOpt with
  | some s => splitTrim s
  | none => if adds.isEmpty then orig else orig ++ adds

/-- Requires-Dist flags applied to the loaded dependency list
(cli.py lines 141-151), structurally identical to the classifier case. -/
def applyRequiresDistFlags (setOpt : Option String) (adds : List String)
    (orig : List String) : List String :=
  match setOpt with
  | some s => splitTrim s
  | none => if adds.isEmpty then orig else orig ++ adds

/-- Whether the non-rpath flags set `changes_made` (cli.py lines 100-151 and
166-181): any single-value field, any classifier or requires-dist flag
(an empty `--add-classifier` list is falsy and changes nothing), or any
tag flag. -/
def anyFieldChange (a : EditArgs) : Bool :=
  a.pkgName.isSome || a.version.isSome || a.summary.isSome ||
  a.author.isSome || a.authorEmail.isSome || a.pkgLicense.isSome ||
  a.requiresPython.isSome ||
  a.setClassifiers.isSome || !a.addClassifier.isEmpty ||
  a.setRequiresDist.isSome || !a.addRequiresDist.isEmpty ||
  a.platformTag.isSome || a.pythonTag.isSome || a.abiTag.isSome

/-- The `--set-rpath` loop (cli.py lines 154-163): each `editor.set_rpath`
call either raises (the handler exits 1 at once, modelled as `none`) or
returns a match count; `changes_made` is set when some count is positive.
`some changed` means the loop completed with that flag contribution. -/
def runRpaths : List (Except Unit Nat) → Option Bool
  | [] => some false
  | Except.error _ :: _ => none
  | Except.ok n :: rest => (runRpaths rest).map (fun b => b || decide (0 < n))

/-- The `_edit` handler (cli.py lines 88-201) reduced to its exit status and
whether it wrote an output wheel. `loadOk` is whether `WheelEditor(wheel)`
succeeded, `rpathResults` the outcomes of the `set_rpath` calls in flag
order, `saveOk` whether `editor.save` would succeed. Every `sys.exit(1)`
path writes nothing; the single fall-through path saves and exits 0. -/
def editRun (loadOk : Bool) (a : EditArgs)
    (rpathResults : List (Except Unit Nat)) (saveOk : Bool) : Nat × Bool :=
  if loadOk = false then (1, false)
  else
    match runRpaths rpathResults with
    | none => (1, false)
    | some rpathChanged =>
      if (anyFieldChange a || rpathChanged) = false then (1, false)
      else if saveOk then (0, true) else (1, false)

/-- Exit status and write flag of a full `edit` invocation: like `show`,
the `wheel` positional argument is validated by the argparse `type=`
callback `_existing_path` (cli.py lines 24-28 and 245), so a nonexistent
path is rejected by argparse with status 2 before `_edit` runs and nothing
is written; otherwise `_edit` decides the outcome. -/
def editCliRun (wheelPathExists : Bool) (loadOk : Bool) (a : EditArgs)
    (rpathResults : List (Except Unit Nat)) (saveOk : Bool) : Nat × Bool :=
  if wheelPathExists = false then (2, false)
  else editRun loadOk a rpathResults saveOk

/-- POSIX `os.path.join` on two components, as used at cli.py line 193. -/
def osPathJoin (a b : String) : String :=
  if b.startsWith ("/") then b
  else if a = "" || a.endsWith ("/") then a ++ b
  else a ++ "/" ++ b

/-- Output-path resolution in `_edit` (cli.py lines 190-193): when
`--output` is a non-empty path naming an existing directory, the editor
filename is joined onto it; otherwise the argument is used as given. -/
def resolveOutput (output : Option String) (isDir : String → Bool)
    (filename : String) : Option String :=
  match output with
  | none => none
  | some o => if o ≠ "" ∧ isDir o = true then some (osPathJoin o filename) else some o

/-! ## URL-safe unpadded base64 (RECORD hash encoding)

Modelled from the spec: the RECORD codec encodes each 32-byte SHA-256
digest "as URL-safe base64 with trailing `=` stripped" (spec §4.3); the
tests reproduce it as `base64.urlsafe_b64encode(...).rstrip("=")`. -/

/-- The 64-character URL-safe base64 alphabet. -/
def b64Alphabet : List Char :=
  "ABCDEFGHIJKLMNOPQRSTUVWXYZabcdefghijklmnopqrstuvwxyz0123456789-_".data

/-- The alphabet character for a 6-bit group. -/
def b64Char (n : Nat) : Char := b64Alphabet.getD n 'A'

/-- URL-safe base64 of a byte list, without padding: groups of three bytes
become four characters; a trailing byte becomes two characters and two
trailing bytes become three. -/
def b64urlChars : List Nat → List Char
  | [] => []
  | [a] => [b64Char (a / 4), b64Char (a % 4 * 16)]
  | [a, b] => [b64Char (a / 4), b64Char (a % 4 * 16 + b / 16), b64Char (b % 16 * 4)]
  | a :: b :: c :: rest =>
    b64Char (a / 4) :: b64Char (a % 4 * 16 + b / 16) ::
    b64Char (b % 16 * 4 + c / 64) :: b64Char (c % 64) :: b64urlChars rest

/-- URL-safe unpadded base64 of a byte list, as a string. -/
def b64url (bs : List Nat) : String := String.mk (b64urlChars bs)

/-! ## RECORD manifest builder

Modelled from the spec: the wheel rewrite engine is a Rust extension whose
sources are not in this snapshot; §4.3 of the spec fixes how `save` rebuilds
RECORD from the final entry list (directories and signature files omitted,
the RECORD row last with empty hash and size, every other row carrying
`sha256=<urlsafe_b64_nopad>` of the uncompressed content and its decimal
length). SHA-256 itself is kept abstract as a `digest` parameter. -/

/-- A ZIP member as the RECORD builder sees it: its path, whether it is a
directory entry, and its uncompressed content bytes. -/
structure ZEntry where
  path : String
  isDir : Bool
  content : List Nat
  deriving Repr, DecidableEq

/-- The path of the RECORD member inside the dist-info directory. -/
def recordPath (distInfo : String) : String := distInfo ++ "/RECORD"

/-- Whether a path is one of the signature files `RECORD.jws`, `RECORD.p7s`. -/
def isSigFile (distInfo p : String) : Bool :=
  p == distInfo ++ "/RECORD.jws" || p == distInfo ++ "/RECORD.p7s"

/-- Whether an entry receives a hashed RECORD row: non-directory, not the
RECORD member itself, not a signature file. -/
def recordMember (distInfo : String) (e : ZEntry) : Bool :=
  !e.isDir && e.path != recordPath distInfo && !isSigFile distInfo e.path

/-- The RECORD row for a hashed entry: path, `sha256=<b64>` of the digest of
the uncompressed content, and the decimal uncompressed length. -/
def recordRowFor (digest : List Nat → List Nat) (e : ZEntry) :
    String × String × String :=
  (e.path, "sha256=" ++ b64url (digest e.content), toString e.content.length)

/-- Modelled from the spec: rebuild RECORD from the final entry list —
one hashed row per qualifying entry in entry order, then the RECORD row
itself, last, with empty hash and size columns. -/
def buildRecord (digest : List Nat → List Nat) (distInfo : String)
    (entries : List ZEntry) : List (String × String × String) :=
  (entries.filter (recordMember distInfo)).map (recordRowFor digest) ++
    [(recordPath distInfo, "", "")]

/-- The RECORD row for a given path: the first row whose path column
matches. -/
def findRow (rows : List (String × String × String)) (p : String) :
    Option (String × String × String) :=
  rows.find? (fun r => r.1 == p)

/-! ## Atomic in-place save

Modelled from the spec: `save` with the source path as target "write[s] to
a sibling temporary file and atomically rename[s] over the source on
success"; on error "the temporary file is removed so the original is
preserved" (spec §4.8, §7). The state tracks the bytes at the target path
and at the sibling temporary path. -/

/-- The two on-disk paths the in-place save touches. -/
structure DiskState where
  target : Option (List Nat)
  temp : Option (List Nat)
  deriving Repr, DecidableEq

/-- How the streaming of the output into the temporary file ends: complete
success, or failure after some prefix of bytes reached the temporary file. -/
inductive SaveOutcome where
  | ok : SaveOutcome
  | writeFail : List Nat → SaveOutcome
  deriving Repr, DecidableEq

/-- Modelled from the spec: the in-place save protocol. The output is
streamed to the sibling temporary file; on success the temporary file is
atomically renamed over the target, on failure the temporary file is
removed and the target is left as it was. -/
def saveInPlace (fs : DiskState) (out : List Nat) (oc : SaveOutcome) :
    DiskState :=
  match oc with
  | SaveOutcome.ok =>
    let afterWrite : DiskState := { fs with temp := some out }
    { target := afterWrite.temp, temp := none }
  | SaveOutcome.writeFail p =>
    let afterWrite : DiskState := { fs with temp := some p }
    { target := afterWrite.target, temp := none }

/-! ## ZIP64 local extra field

Modelled from the spec: the ZIP writer emits a ZIP64 extra block in the
local header when a 32-bit size field is elided to the `0xFFFFFFFF`
sentinel, each elided field contributing one 64-bit (8-byte) value, and
"every ZIP64 local extra contains at least the uncompressed and compressed
sizes (both or neither)" (spec §4.2). An independent reader that finds both
local size fields at the sentinel therefore requires 16 bytes of extra
data. The repository's own test documentation (test_uv_compatibility.py
lines 16-23) records that the raw-copy path emits only 8 bytes there. -/

/-- Bytes of ZIP64 extra data the writer emits for `nFields` elided
fields: one 64-bit value each. -/
def zip64LocalExtraLen (nFields : Nat) : Nat := 8 * nFields

/-- Bytes of ZIP64 extra data an independent reader requires, given which
of the uncompressed size, compressed size and local-header offset fields
of the base header hold the sentinel. -/
def zip64ReaderExpectedLen (uncompElided compElided offsetElided : Bool) :
    Nat :=
  (if uncompElided then 8 else 0) + (if compElided then 8 else 0) +
    (if offsetElided then 8 else 0)

/-- Whether a ZIP64 extra block with `dataLen` bytes of data satisfies an
independent reader expecting values for the elided fields. -/
def zip64ExtraParses (uncompElided compElided offsetElided : Bool)
    (dataLen : Nat) : Bool :=
  zip64ReaderExpectedLen uncompElided compElided offsetElided ≤ dataLen

/-! ## Dist-info name normalization

Modelled from the spec: `normalize_dist_info_name` is part of the Rust
extension (re-exported by `src/python/editwheel/__init__.py`); the spec
defines it as "replacing each maximal run of `-`, `_`, `.` with `_`; case
preserved" (spec §6). Two renderings are given: a one-pass scanner that
remembers whether the previous character was a separator, and a direct
run-collapsing recursion; the claim theorem proves them equal. -/

/-- The separator characters collapsed by dist-info normalization. -/
def isSepChar (c : Char) : Bool := c = '-' || c = '_' || c = '.'

/-- One-pass scanner: `prevSep` records whether the previous character was
part of a separator run already rendered as `_`. -/
def normChars : Bool → List Char → List Char
  | _, [] => []
  | prevSep, c :: cs =>
    if isSepChar c then
      if prevSep then normChars true cs else '_' :: normChars true cs
    else c :: normChars false cs

/-- Modelled from the spec: the public `normalize_dist_info_name` function,
replacing each maximal run of `-`, `_`, `.` by a single `_`, preserving
case. -/
def normalize_dist_info_name (s : String) : String :=
  String.mk (normChars false s.data)

/-- Direct rendering of the spec words: a separator character opens a
maximal run, which is consumed wholesale (`dropWhile`) and replaced by a
single `_`; every other character is kept. -/
def collapseRunsChars : List Char → List Char
  | [] => []
  | c :: cs =>
    if isSepChar c then '_' :: collapseRunsChars (cs.dropWhile isSepChar)
    else c :: collapseRunsChars cs
termination_by l => l.length
decreasing_by
  all_goals simp_wf
  all_goals
    have h : (cs.dropWhile isSepChar).length ≤ cs.length := by
      induction cs with
      | nil => simp [List.dropWhile]
      | cons a t ih =>
        by_cases ha : isSepChar a
        · simpa [List.dropWhile, ha] using Nat.le_succ_of_le ih
        · simp [List.dropWhile, ha]
    omega

/-- Maximal-run replacement on a whole string. -/
def collapseRuns (s : String) : String := String.mk (collapseRunsChars s.data)

/-! ## Save normalization and idempotence

Modelled from the spec: `save` (spec §4.2, §4.8, §9) applies pending
patches, gives re-encoded members a fixed DOS epoch timestamp while
preserving source timestamps of raw-copied members, rebuilds RECORD from
the final entry list, and streams entries in preserved order; reopening the
result yields an editor with no dirty members. The archive is modelled as
its ordered entry list; deflate is byte-stable within equal inputs (spec
§4.2), so compression is elided and content is kept uncompressed. -/

/-- A member of the in-memory wheel: path, directory flag, uncompressed
content, last-mod timestamp, and whether this session must re-emit it. -/
structure WEntry where
  path : String
  isDir : Bool
  content : List Nat
  mtime : Nat
  dirty : Bool
  deriving Repr, DecidableEq

/-- The in-memory wheel: its dist-info directory name and ordered members. -/
structure Wheel where
  distInfo : String
  entries : List WEntry
  deriving Repr, DecidableEq

/-- The fixed DOS timestamp (1980-01-01 00:00:00) given to re-emitted
members. -/
def dosEpoch : Nat := 0

/-- The view of a member that the RECORD builder consumes. -/
def toZEntry (e : WEntry) : ZEntry := ⟨e.path, e.isDir, e.content⟩

/-- A CSV field under RFC 4180 quoting: quoted, with inner quotes doubled,
exactly when it contains a comma, quote or line break. -/
def csvField (s : String) : String :=
  if s.data.any (fun c => c = ',' || c = '"' || c = '\n' || c = '\x0d') then
    "\"" ++ String.mk (s.data.foldr
      (fun c acc => if c = '"' then '"' :: '"' :: acc else c :: acc) []) ++ "\""
  else s

/-- One RECORD line: the three CSV fields joined by commas, CRLF-terminated. -/
def recordLine (r : String × String × String) : String :=
  csvField r.1 ++ "," ++ csvField r.2.1 ++ "," ++ csvField r.2.2 ++ "\x0d\n"

/-- The RECORD member's bytes for a row list. -/
def encodeRecord (rows : List (String × String × String)) : List Nat :=
  (String.join (rows.map recordLine)).data.map Char.toNat

/-- Timestamp normalization at save: a dirty member is re-emitted with the
fixed epoch timestamp and comes out clean; an untouched member keeps its
source timestamp (spec §4.2 Determinism, §9). -/
def cleanEntry (e : WEntry) : WEntry :=
  if e.dirty then { e with mtime := dosEpoch, dirty := false } else e

/-- Replacing the RECORD member's content with the freshly rebuilt manifest;
RECORD is always re-emitted, so it gets the epoch timestamp and is clean. -/
def setRecord (distInfo : String) (rb : List Nat) (e : WEntry) : WEntry :=
  if e.path = recordPath distInfo then
    { e with content := rb, mtime := dosEpoch, dirty := false }
  else e

/-- Modelled from the spec: `save` as the archive it emits — member order
preserved, dirty members re-emitted at the epoch timestamp, RECORD rebuilt
from the final entry list. -/
def saveWheel (digest : List Nat → List Nat) (w : Wheel) : Wheel :=
  { distInfo := w.distInfo,
    entries := (w.entries.map cleanEntry).map
      (setRecord w.distInfo
        (encodeRecord (buildRecord digest w.distInfo
          ((w.entries.map cleanEntry).map toZEntry)))) }

/-- Modelled from the spec: reopening a saved archive yields an editor
with every member clean (nothing is dirty before the first mutation). -/
def loadWheel (w : Wheel) : Wheel :=
  { w with entries := w.entries.map (fun e => { e with dirty := false }) }

/-! # Theorems -/

/-- Claim C2: atomic in-place save — a successful save leaves exactly the
full output bytes at the target and no temporary file; a failed save, no
matter how much of the output reached the temporary file, removes the
temporary file and leaves the original target bytes unchanged. In
particular no partial file is ever left at the target. -/
theorem claim_C2_atomic_in_place_save :
    ∀ (fs : DiskState) (out : List Nat),
      saveInPlace fs out SaveOutcome.ok = { target := some out, temp := none } ∧
      ∀ p, saveInPlace fs out (SaveOutcome.writeFail p) =
        { target := fs.target, temp := none } :=
  fun _ _ => ⟨rfl, fun _ => rfl⟩

/-- Claim C3, at the failing configuration the repository's test
documentation records (test_uv_compatibility.py lines 16-23): for a
raw-copied member whose uncompressed and compressed sizes are both at the
`0xFFFFFFFF` sentinel, an independent ZIP64 reader requires 16 bytes of
ZIP64 extra data, while the raw-copy path emits an extra block carrying a
single 64-bit field — 8 bytes — which such a reader rejects. -/
theorem claim_C3_zip64_raw_copy_extra_too_short :
    zip64ReaderExpectedLen true true false = 16 ∧
    zip64LocalExtraLen 1 = 8 ∧
    zip64ExtraParses true true false (zip64LocalExtraLen 1) = false :=
  ⟨rfl, rfl, by decide⟩

/-- The metadata keys are already lowercase, so `k.lower()` is the
identity on each of them. -/
theorem pyLower_showFields : ∀ k ∈ showFields, pyLower k = k := by decide

/-- The `--field` filter comes up empty exactly when no requested field
name, normalized, names a metadata key. -/
theorem showFilter_eq_nil_iff (fields : List String) :
    showFilter fields = [] ↔ ∀ g ∈ fields, normalizeField g ∉ showFields := by
  unfold showFilter
  rw [List.filter_eq_nil_iff]
  constructor
  · intro h g hg hmem
    refine h _ hmem ?_
    rw [pyLower_showFields _ hmem]
    exact List.elem_iff.mpr (List.mem_map.mpr ⟨g, hg, rfl⟩)
  · intro h k hk hc
    rw [pyLower_showFields _ hk] at hc
    obtain ⟨g, hg, hgk⟩ := List.mem_map.mp (List.elem_iff.mp hc)
    exact h g hg (hgk ▸ hk)

/-- Claim C5 fails on the code at two concrete invocations: a `show` call
whose wheel path does not exist is rejected by argparse with exit status 2,
not 1; and a `show` call requesting the unknown field `nosuchfield` next to
the known field `name` exits 0, though the claim requires status 1 whenever
an unknown field name is requested. -/
theorem claim_C5_counterexample :
    showCliExit false true [] = 2 ∧ showCliExit false true [] ≠ 1 ∧
    showExit true ["name", "nosuchfield"] = 0 :=
  ⟨rfl, by decide, by decide⟩

/-- Claim C5 as amended: a `show` invocation whose wheel path fails the
argparse existence check exits 2; with an existing path, the handler exits
1 when the editor fails to load (missing or malformed wheel), exits 1 when
fields were requested and none of them, normalized, is a known key, and
exits 0 otherwise — in particular unknown field names requested alongside
at least one known one are ignored. -/
theorem claim_C5_show_exit_codes_amended :
    ∀ (loadOk : Bool) (fields : List String),
      showCliExit false loadOk fields = 2 ∧
      showCliExit true false fields = 1 ∧
      (showCliExit true true fields = 0 ↔
        fields = [] ∨ ∃ g ∈ fields, normalizeField g ∈ showFields) ∧
      (showCliExit true true fields = 1 ↔
        fields ≠ [] ∧ ∀ g ∈ fields, normalizeField g ∉ showFields) := by
  intro loadOk fields
  have hval : showCliExit true true fields =
      if fields = [] then 0 else if showFilter fields = [] then 1 else 0 := by
    show showExit true fields = _
    unfold showExit
    rcases fields with _ | ⟨g, gs⟩
    · simp
    · by_cases hE : showFilter (g :: gs) = [] <;>
        simp [hE, List.isEmpty_iff]
  refine ⟨rfl, rfl, ?_, ?_⟩
  · rw [hval]
    split_ifs with h0 hE
    · exact ⟨fun _ => Or.inl h0, fun _ => rfl⟩
    · have hall := (showFilter_eq_nil_iff fields).mp hE
      constructor
      · intro h; exact absurd h (by decide)
      · rintro (h | ⟨g, hg, hmem⟩)
        · exact absurd h h0
        · exact absurd hmem (hall g hg)
    · have hne : ¬∀ g ∈ fields, normalizeField g ∉ showFields :=
        fun hAll => hE ((showFilter_eq_nil_iff fields).mpr hAll)
      push_neg at hne
      obtain ⟨g, hg, hmem⟩ := hne
      exact ⟨fun _ => Or.inr ⟨g, hg, hmem⟩, fun _ => rfl⟩
  · rw [hval]
    split_ifs with h0 hE
    · constructor
      · intro h; exact absurd h (by decide)
      · rintro ⟨hne, _⟩; exact absurd h0 hne
    · exact ⟨fun _ => ⟨h0, (showFilter_eq_nil_iff fields).mp hE⟩, fun _ => rfl⟩
    · have hne : ¬∀ g ∈ fields, normalizeField g ∉ showFields :=
        fun hAll => hE ((showFilter_eq_nil_iff fields).mpr hAll)
      constructor
      · intro h; exact absurd h (by decide)
      · rintro ⟨_, hall⟩; exact absurd hall hne

/-- Claim C6 fails on the code at a concrete invocation: `edit` on a wheel
path that does not exist — with, say, `--version 2` — writes nothing and is
rejected by argparse with exit status 2, where the claim requires status 1
for every invocation that does not write the output wheel. -/
theorem claim_C6_counterexample :
    editCliRun false true
      ⟨none, some ("2"), none, none, none, none, none, none, [], none, [],
        none, none, none, none⟩ [] true = (2, false) ∧
    (editCliRun false true
      ⟨none, some ("2"), none, none, none, none, none, none, [], none, [],
        none, none, none, none⟩ [] true).1 ≠ 1 :=
  ⟨rfl, by decide⟩

/-- Claim C6 as amended: an `edit` invocation whose wheel path fails the
argparse existence check exits 2 with nothing written; every other
invocation exits 0 exactly when it successfully writes the output wheel
and exits 1 writing nothing otherwise — on load failure, on a `set_rpath`
error, on save failure, and when no change was applied. -/
theorem claim_C6_edit_exit_codes_amended :
    ∀ (loadOk : Bool) (a : EditArgs) (rs : List (Except Unit Nat))
      (saveOk : Bool),
      editCliRun false loadOk a rs saveOk = (2, false) ∧
      (editCliRun true loadOk a rs saveOk = (0, true) ∨
        editCliRun true loadOk a rs saveOk = (1, false)) := by
  intro loadOk a rs saveOk
  refine ⟨rfl, ?_⟩
  show editRun loadOk a rs saveOk = _ ∨ editRun loadOk a rs saveOk = _
  unfold editRun
  split
  · exact Or.inr rfl
  · split
    · exact Or.inr rfl
    · split
      · exact Or.inr rfl
      · split
        · exact Or.inl rfl
        · exact Or.inr rfl

/-- Claim C7: with no set-form flag, the `--add-classifier` and
`--add-requires-dist` flags produce exactly the original list with the
added values appended at the end in flag order; the pre-existing values
keep their relative order. -/
theorem claim_C7_append_preserves_order :
    ∀ (adds orig : List String),
      applyClassifierFlags none adds orig = orig ++ adds ∧
      applyRequiresDistFlags none adds orig = orig ++ adds := by
  intro adds orig
  constructor <;>
    cases adds <;>
      simp [applyClassifierFlags, applyRequiresDistFlags]

/-- Claim C9: when the set-form flag is supplied, the add-form flags for
the same field are ignored entirely: the field becomes the comma-split,
whitespace-trimmed, non-empty segments of the set-form argument, whatever
the add-form flags and the original list were. -/
theorem claim_C9_set_flags_take_precedence :
    ∀ (s : String) (adds orig : List String),
      applyClassifierFlags (some s) adds orig = splitTrim s ∧
      applyRequiresDistFlags (some s) adds orig = splitTrim s :=
  fun _ _ _ => ⟨rfl, rfl⟩

/-- Claim C10: when `--output` names an existing directory (a non-empty
path for which `os.path.isdir` holds), the edited wheel is written at the
directory path joined with the editor's derived canonical filename, not at
the directory path itself. -/
theorem claim_C10_output_directory_join :
    ∀ (o : String) (isDir : String → Bool) (filename : String),
      o ≠ "" → isDir o = true →
      resolveOutput (some o) isDir filename = some (osPathJoin o filename) := by
  intro o d f ho hd
  show (if o ≠ "" ∧ d o = true then some (osPathJoin o f) else some o) = _
  rw [if_pos ⟨ho, hd⟩]

/-- The one-pass scanner agrees with direct maximal-run replacement: with
the previous character not a separator it collapses runs exactly as
`collapseRunsChars`, and with a separator run already open it behaves like
run replacement after the rest of the open run is consumed. -/
theorem normChars_eq_collapseRunsChars : ∀ l : List Char,
    normChars false l = collapseRunsChars l ∧
    normChars true l = collapseRunsChars (l.dropWhile isSepChar) := by
  intro l
  induction l with
  | nil => constructor <;> simp [normChars, collapseRunsChars]
  | cons c cs ih =>
    by_cases hc : isSepChar c
    · exact ⟨by simp [normChars, collapseRunsChars, hc, ih.2],
        by simp [normChars, List.dropWhile, hc, ih.2]⟩
    · exact ⟨by simp [normChars, collapseRunsChars, hc, ih.1],
        by simp [normChars, List.dropWhile, collapseRunsChars, hc, ih.1]⟩

/-- Claim C8: `normalize_dist_info_name` maps any distribution name to the
name with each maximal run of `-`, `_`, `.` replaced by a single `_`, with
letter case preserved; in particular `"My-Package.name"` maps to
`"My_Package_name"`. -/
theorem claim_C8_normalize_dist_info_name :
    (∀ s : String, normalize_dist_info_name s = collapseRuns s) ∧
    normalize_dist_info_name ("My-Package.name") = "My_Package_name" :=
  ⟨fun s => congrArg String.mk (normChars_eq_collapseRunsChars s.data).1,
    by decide⟩

/-- A successful `find?` on a list prefix survives appending. -/
theorem find?_append_of_some {α : Type} (p : α → Bool) (xs ys : List α)
    (r : α) (h : xs.find? p = some r) : (xs ++ ys).find? p = some r := by
  induction xs with
  | nil => exact absurd h (by simp)
  | cons a t ih =>
    by_cases hpa : p a = true
    · rw [List.find?_cons_of_pos _ hpa] at h
      rw [List.cons_append, List.find?_cons_of_pos _ hpa]
      exact h
    · rw [List.find?_cons_of_neg _ (by simpa using hpa)] at h
      rw [List.cons_append, List.find?_cons_of_neg _ (by simpa using hpa)]
      exact ih h

/-- Looking an entry's path up among the hashed rows finds exactly that
entry's row, provided entry paths are distinct and the entry qualifies for
a hashed row. -/
theorem findRow_hashed_rows (digest : List Nat → List Nat)
    (distInfo : String) (l : List ZEntry) (e : ZEntry) (hmem : e ∈ l)
    (hnodup : (l.map ZEntry.path).Nodup)
    (hP : recordMember distInfo e = true) :
    ((l.filter (recordMember distInfo)).map (recordRowFor digest)).find?
      (fun r => r.1 == e.path) = some (recordRowFor digest e) := by
  induction l with
  | nil => cases hmem
  | cons a t ih =>
    rw [List.map_cons] at hnodup
    obtain ⟨hnotin, hnodup'⟩ := List.nodup_cons.mp hnodup
    rcases List.mem_cons.mp hmem with rfl | hmem'
    · rw [List.filter_cons_of_pos hP, List.map_cons,
        List.find?_cons_of_pos _ (by simp [recordRowFor])]
    · have hne : a.path ≠ e.path :=
        fun hEq => hnotin (hEq ▸ List.mem_map.mpr ⟨e, hmem', rfl⟩)
      by_cases hPa : recordMember distInfo a = true
      · rw [List.filter_cons_of_pos hPa, List.map_cons,
          List.find?_cons_of_neg _ (by simp [recordRowFor, hne])]
        exact ih hmem' hnodup'
      · rw [List.filter_cons_of_neg (by simpa using hPa)]
        exact ih hmem' hnodup'

/-- Claim C1: in a saved wheel, the RECORD row for any non-directory entry
other than RECORD and the signature files carries `sha256=<b64>` where
`<b64>` is the URL-safe unpadded base64 of the digest of the entry's
uncompressed content, and the size column is the decimal uncompressed byte
length. -/
theorem claim_C1_record_hash_integrity
    (digest : List Nat → List Nat) (distInfo : String)
    (entries : List ZEntry) (e : ZEntry) (hmem : e ∈ entries)
    (hnodup : (entries.map ZEntry.path).Nodup) (hdir : e.isDir = false)
    (hrec : e.path ≠ recordPath distInfo)
    (hsig : isSigFile distInfo e.path = false) :
    findRow (buildRecord digest distInfo entries) e.path =
      some (e.path, "sha256=" ++ b64url (digest e.content),
        toString e.content.length) := by
  have hP : recordMember distInfo e = true := by
    simp [recordMember, hdir, hsig, bne_iff_ne, hrec]
  unfold findRow buildRecord
  exact find?_append_of_some _ _ _ _
    (findRow_hashed_rows digest distInfo entries e hmem hnodup hP)

/-- Claim C1 at a concrete wheel: a three-member archive whose digest
function is instantiated with an executable stand-in; the first member's
RECORD row carries its encoded digest and its length 2. -/
theorem claim_C1_record_hash_integrity_witness :
    (⟨"pkg/mod.py", false, [104, 105]⟩ : ZEntry) ∈
      ([⟨"pkg/mod.py", false, [104, 105]⟩,
        ⟨"pkg-1.0.dist-info/METADATA", false, [77]⟩,
        ⟨"pkg-1.0.dist-info/RECORD", false, []⟩] : List ZEntry) ∧
    (([⟨"pkg/mod.py", false, [104, 105]⟩,
        ⟨"pkg-1.0.dist-info/METADATA", false, [77]⟩,
        ⟨"pkg-1.0.dist-info/RECORD", false, []⟩] : List ZEntry).map
      ZEntry.path).Nodup ∧
    findRow
      (buildRecord (fun bs => List.replicate 32 (bs.length % 256))
        "pkg-1.0.dist-info"
        [⟨"pkg/mod.py", false, [104, 105]⟩,
         ⟨"pkg-1.0.dist-info/METADATA", false, [77]⟩,
         ⟨"pkg-1.0.dist-info/RECORD", false, []⟩]) "pkg/mod.py" =
      some ("pkg/mod.py",
        "sha256=" ++ b64url
          ((fun bs : List Nat => List.replicate 32 (bs.length % 256))
            [104, 105]),
        toString ([104, 105] : List Nat).length) :=
  ⟨by decide, by decide,
    claim_C1_record_hash_integrity
      (fun bs => List.replicate 32 (bs.length % 256)) "pkg-1.0.dist-info"
      [⟨"pkg/mod.py", false, [104, 105]⟩,
       ⟨"pkg-1.0.dist-info/METADATA", false, [77]⟩,
       ⟨"pkg-1.0.dist-info/RECORD", false, []⟩]
      ⟨"pkg/mod.py", false, [104, 105]⟩
      (by decide) (by decide) rfl (by decide) (by decide)⟩

/-- Timestamp normalization always leaves a clean member. -/
theorem cleanEntry_dirty (e : WEntry) : (cleanEntry e).dirty = false := by
  cases hd : e.dirty <;> simp [cleanEntry, hd]

/-- Timestamp normalization is the identity on a clean member. -/
theorem cleanEntry_of_clean (e : WEntry) (h : e.dirty = false) :
    cleanEntry e = e := by
  simp [cleanEntry, h]

/-- Rewriting RECORD never dirties a clean member. -/
theorem setRecord_dirty (d : String) (rb : List Nat) (e : WEntry)
    (h : e.dirty = false) : (setRecord d rb e).dirty = false := by
  unfold setRecord
  split <;> simp [h]

/-- Rewriting RECORD leaves the builder's view of a non-RECORD member
unchanged. -/
theorem toZEntry_setRecord (d : String) (rb : List Nat) (e : WEntry)
    (h : ¬e.path = recordPath d) :
    toZEntry (setRecord d rb e) = toZEntry e := by
  simp [setRecord, h]

/-- The hashed-row selection is blind to the RECORD member's content:
rewriting RECORD in the entry list leaves the selected rows' inputs
unchanged. -/
theorem filter_map_setRecord (d : String) (rb : List Nat)
    (l : List WEntry) :
    ((l.map (setRecord d rb)).map toZEntry).filter (recordMember d) =
      (l.map toZEntry).filter (recordMember d) := by
  induction l with
  | nil => rfl
  | cons a t ih =>
    simp only [List.map_cons]
    by_cases hp : a.path = recordPath d
    · have h1 : ¬recordMember d (toZEntry (setRecord d rb a)) = true := by
        simp [recordMember, toZEntry, setRecord, hp]
      have h2 : ¬recordMember d (toZEntry a) = true := by
        simp [recordMember, toZEntry, hp]
      rw [List.filter_cons_of_neg h1, List.filter_cons_of_neg h2]
      exact ih
    · rw [toZEntry_setRecord d rb a hp]
      by_cases hm : recordMember d (toZEntry a) = true
      · rw [List.filter_cons_of_pos hm, List.filter_cons_of_pos hm, ih]
      · rw [List.filter_cons_of_neg hm, List.filter_cons_of_neg hm]
        exact ih

/-- Rebuilding RECORD after the RECORD member was rewritten yields the
same manifest rows. -/
theorem buildRecord_setRecord (digest : List Nat → List Nat) (d : String)
    (rb : List Nat) (l : List WEntry) :
    buildRecord digest d ((l.map (setRecord d rb)).map toZEntry) =
      buildRecord digest d (l.map toZEntry) := by
  unfold buildRecord
  rw [filter_map_setRecord]

/-- Rewriting RECORD with the same bytes twice equals doing it once. -/
theorem setRecord_setRecord (d : String) (rb : List Nat) (e : WEntry) :
    setRecord d rb (setRecord d rb e) = setRecord d rb e := by
  unfold setRecord
  by_cases hp : e.path = recordPath d <;> simp [hp]

/-- Every member of a saved archive is clean. -/
theorem saveWheel_entries_clean (digest : List Nat → List Nat) (w : Wheel) :
    ∀ e ∈ (saveWheel digest w).entries, e.dirty = false := by
  intro e he
  obtain ⟨x, hx, rfl⟩ := List.mem_map.mp
    (show e ∈ (w.entries.map cleanEntry).map
      (setRecord w.distInfo
        (encodeRecord (buildRecord digest w.distInfo
          ((w.entries.map cleanEntry).map toZEntry)))) from he)
  obtain ⟨y, _, rfl⟩ := List.mem_map.mp hx
  exact setRecord_dirty _ _ _ (cleanEntry_dirty y)

/-- Clearing the dirty flag of a clean member changes nothing. -/
theorem clearDirty_of_clean (e : WEntry) (h : e.dirty = false) :
    ({ e with dirty := false } : WEntry) = e := by
  cases e
  simp only [] at h
  simp [h]

/-- Reopening an archive whose members are all clean is the identity. -/
theorem loadWheel_of_clean (v : Wheel)
    (h : ∀ e ∈ v.entries, e.dirty = false) : loadWheel v = v := by
  obtain ⟨d, es⟩ := v
  unfold loadWheel
  simp only [Wheel.mk.injEq, true_and]
  calc es.map (fun e => { e with dirty := false })
      = es.map id := List.map_eq_map_iff.mpr
        (fun e he => clearDirty_of_clean e (h e he))
    _ = es := List.map_id es

/-- Timestamp normalization is the identity on a list of clean members. -/
theorem map_cleanEntry_of_clean (l : List WEntry)
    (h : ∀ e ∈ l, e.dirty = false) : l.map cleanEntry = l := by
  calc l.map cleanEntry
      = l.map id := List.map_eq_map_iff.mpr
        (fun e he => cleanEntry_of_clean e (h e he))
    _ = l := List.map_id l

/-- Saving an already-saved archive emits it unchanged. -/
theorem saveWheel_saveWheel (digest : List Nat → List Nat) (w : Wheel) :
    saveWheel digest (saveWheel digest w) = saveWheel digest w := by
  obtain ⟨d, l⟩ := w
  set C := l.map cleanEntry with hC
  set rb := encodeRecord (buildRecord digest d (C.map toZEntry)) with hrb
  set E := C.map (setRecord d rb) with hE
  have hcleanE : ∀ e ∈ E, e.dirty = false := by
    intro e he
    rw [hE] at he
    obtain ⟨x, hx, rfl⟩ := List.mem_map.mp he
    rw [hC] at hx
    obtain ⟨y, _, rfl⟩ := List.mem_map.mp hx
    exact setRecord_dirty _ _ _ (cleanEntry_dirty y)
  show (⟨d, (E.map cleanEntry).map
      (setRecord d (encodeRecord (buildRecord digest d
        ((E.map cleanEntry).map toZEntry))))⟩ : Wheel) = ⟨d, E⟩
  rw [map_cleanEntry_of_clean E hcleanE, hE,
    buildRecord_setRecord digest d rb C, ← hrb, List.map_map]
  exact congrArg (Wheel.mk d)
    (List.map_eq_map_iff.mpr (fun e _ => setRecord_setRecord d rb e))

/-- Claim C4: saving, reopening the result, and saving again with no
mutation in between yields the same archive byte for byte — member order,
content, timestamps and the rebuilt RECORD all coincide. -/
theorem claim_C4_save_idempotent :
    ∀ (digest : List Nat → List Nat) (w : Wheel),
      saveWheel digest (loadWheel (saveWheel digest w)) =
        saveWheel digest w := by
  intro digest w
  rw [loadWheel_of_clean _ (saveWheel_entries_clean digest w),
    saveWheel_saveWheel]

/-- Claim C10 at a concrete input: `--output dist` with an editor filename
`pkg-1.0-py3-none-any.whl` resolves to `dist/pkg-1.0-py3-none-any.whl`. -/
theorem claim_C10_output_directory_join_witness :
    (("dist") : String) ≠ "" ∧ (fun _ : String => true) ("dist") = true ∧
    resolveOutput (some ("dist")) (fun _ => true) ("pkg-1.0-py3-none-any.whl") =
      some (osPathJoin ("dist") ("pkg-1.0-py3-none-any.whl")) :=
  ⟨by decide, rfl,
    claim_C10_output_directory_join ("dist") (fun _ => true)
      ("pkg-1.0-py3-none-any.whl") (by decide) rfl⟩

end EditWheel
